import Mathlib

/-!
Verification of the datagram reliability layer of the httpc client
(`pkg/libhttpc/client.go`).

The Go code is shallowly embedded:
* byte slices are `List Nat` (each element one byte value),
* Go strings are `List Char` (Go's `string`/`[]byte` conversions are
  byte-identical for the inputs considered here),
* machine integers are `Nat`/`Int` with explicit `% 2^w` where overflow
  matters,
* any Go statement that can panic (out-of-range index or slice) is modelled
  by returning `none`; `none` therefore always means a Go runtime panic,
  never a Go error value.
-/

set_option maxRecDepth 10000

/-! ## Go standard library primitives used by client.go -/

/-- Go slice expression s[lo:hi]; `none` models the bounds-check panic. -/
def goSlice (xs : List Nat) (lo hi : Nat) : Option (List Nat) :=
  if lo ≤ hi ∧ hi ≤ xs.length then some ((xs.drop lo).take (hi - lo)) else none

/-- strings.Index(s, sub): index of the first occurrence of sub in s, none for -1. -/
def strIndex : List Char → List Char → Option Nat
  | [], sub => if sub.isPrefixOf ([] : List Char) then some 0 else none
  | c :: t, sub =>
    if sub.isPrefixOf (c :: t) then some 0 else (strIndex t sub).map (· + 1)

/-- Worker for `goSplit`; the fuel is an upper bound on the number of cuts,
`s.length + 1` always suffices for a non-empty separator. -/
def goSplitAux (sep : List Char) : Nat → List Char → List (List Char)
  | 0, s => [s]
  | Nat.succ fuel, s =>
    match strIndex s sep with
    | none => [s]
    | some i => s.take i :: goSplitAux sep fuel (s.drop (i + sep.length))

/-- strings.Split(s, sep) for a non-empty separator. -/
def goSplit (s sep : List Char) : List (List Char) :=
  goSplitAux sep (s.length + 1) s

/-- strings.TrimSuffix(s, suf). -/
def trimSuffix (s suf : List Char) : List Char :=
  if suf.isSuffixOf s then s.take (s.length - suf.length) else s

/-- ASCII white space as recognised by unicode.IsSpace (the inputs here are ASCII). -/
def isSpaceChar (c : Char) : Bool :=
  c = ' ' || c = '\t' || c = '\n' || c = '\x0b' || c = '\x0c' || c = '\r'

/-- strings.TrimSpace(s). -/
def trimSpace (s : List Char) : List Char :=
  ((s.dropWhile isSpaceChar).reverse.dropWhile isSpaceChar).reverse

/-- strconv.Atoi: optional sign followed by at least one decimal digit.
(The int64 range clamp of the real Atoi is not modelled; it is irrelevant
for the octet/port strings considered here.) -/
def atoi (s : List Char) : Option Int :=
  let digitsVal : List Char → Option Int := fun ds =>
    if ds ≠ [] ∧ ds.all Char.isDigit then
      some (ds.foldl (fun acc c => acc * 10 + (c.toNat - 48 : Nat)) 0)
    else none
  match s with
  | '+' :: rest => digitsVal rest
  | '-' :: rest => (digitsVal rest).map (fun v => -v)
  | _ => digitsVal s

/-- The value the Go code actually uses after `v, _ := strconv.Atoi(s)`:
on error Atoi returns 0 together with the discarded error. -/
def atoiOrZero (s : List Char) : Int :=
  (atoi s).getD 0

/-- Go conversion byte(i) for an int i: the low 8 bits. -/
def intToByte (i : Int) : Nat :=
  (i % 256).toNat

/-- Go conversion uint16(i) for an int i: the low 16 bits. -/
def intToUint16 (i : Int) : Nat :=
  (i % 65536).toNat

/-- binary.BigEndian.PutUint32 into a fresh 4-byte slice. -/
def putUint32BE (n : Nat) : List Nat :=
  let m := n % 4294967296
  [m / 16777216 % 256, m / 65536 % 256, m / 256 % 256, m % 256]

/-- binary.BigEndian.PutUint16 into a fresh 2-byte slice. -/
def putUint16BE (n : Nat) : List Nat :=
  let m := n % 65536
  [m / 256, m % 256]

/-- binary.BigEndian.Uint32: reads the first four bytes big-endian.
Every call site in client.go passes a slice of at least four bytes
(seqNo fields built by ParsePacket or PutUint32), so the default case
is never reached there. -/
def beUint32 (b : List Nat) : Nat :=
  match b with
  | b0 :: b1 :: b2 :: b3 :: _ => ((b0 * 256 + b1) * 256 + b2) * 256 + b3
  | _ => 0

/-! ## Data model: UDPPacket (fields as used throughout client.go) -/

/-- The UDPPacket struct: five byte-slice fields, in wire order. -/
structure UDPPacket where
  pType : List Nat
  seqNo : List Nat
  peerAddr : List Nat
  peerPort : List Nat
  payload : List Nat
deriving DecidableEq, Repr

/-! ## Packet codec -/

/-- ParsePacket (client.go lines 16-30): splits the raw datagram into the
five fields. The Go code indexes data[0] and slices data[1:5], data[5:9],
data[9:11], data[11:] with no length check whatsoever; on any input shorter
than 11 bytes one of those accesses panics, which the embedding reports
as `none`. There is no error return value in the source. -/
def ParsePacket (data : List Nat) : Option UDPPacket :=
  match data.get? 0, goSlice data 1 5, goSlice data 5 9,
        goSlice data 9 11, goSlice data 11 data.length with
  | some pType, some seqNo, some peerAddr, some peerPort, some payload =>
    some { pType := [pType], seqNo := seqNo, peerAddr := peerAddr,
           peerPort := peerPort, payload := payload }
  | _, _, _, _, _ => none

/-- makePacket (client.go lines 32-72). `host` is parsedURL.Host.
The address loop writes peerAddrBytes[i] for every dot-separated section
of the host, panicking (`none`) when there are more than four sections;
`strconv.Atoi` errors are discarded, so non-numeric sections silently
become zero bytes. addrSplit[1] panics (`none`) when the host carries no
colon. The function has no error return value. -/
def makePacket (pType seqNo : Nat) (host : List Char) (payload : List Nat) :
    Option UDPPacket :=
  let pTypeByte := [pType % 256]
  let seqNoBytes := putUint32BE seqNo
  let addrSplit := goSplit host [':']
  let peerAddr := addrSplit.getD 0 []
  let peerAddrSplit := goSplit peerAddr ['.']
  if peerAddrSplit.length > 4 then none
  else
    let peerAddrBytes := (List.range 4).map fun i =>
      match peerAddrSplit.get? i with
      | some s => intToByte (atoiOrZero s)
      | none => 0
    match addrSplit.get? 1 with
    | none => none
    | some portStr =>
      some { pType := pTypeByte, seqNo := seqNoBytes, peerAddr := peerAddrBytes,
             peerPort := putUint16BE (intToUint16 (atoiOrZero portStr)),
             payload := payload }

/-- getBytesFromPacket (client.go lines 144-150): header then payload. -/
def getBytesFromPacket (packet : UDPPacket) : List Nat :=
  packet.pType ++ packet.seqNo ++ packet.peerAddr ++ packet.peerPort ++ packet.payload

/-! ## Segmenter -/

/-- getDataPacketBytes (client.go lines 74-99).
numPackets = int(math.Ceil(len(payload)/1013)) (exact for these sizes);
a slice of numPackets nil entries is allocated, the loop fills slots
0 .. numPackets-2 with full 1013-byte chunks (sequence numbers counting up
from seqNo), and the final slot is written only when len(payload) % 1013 > 0.
A nil entry is modelled as the empty byte list, matching how Go treats a nil
byte slice on write. `none` models a panic inside makePacket. -/
def getDataPacketBytes (seqNo : Nat) (host : List Char) (payload : List Nat) :
    Option (List (List Nat) × Nat) :=
  let numPackets := (payload.length + 1012) / 1013
  if numPackets = 1 then
    (makePacket 0 seqNo host payload).map fun p => ([getBytesFromPacket p], 1)
  else
    let looped := (List.range' 1 (numPackets - 1)).foldl
      (fun acc i =>
        acc.bind fun arr =>
          (makePacket 0 ((seqNo + (i - 1)) % 4294967296) host
              ((payload.drop ((i - 1) * 1013)).take 1013)).map
            fun p => arr.set (i - 1) (getBytesFromPacket p))
      (some (List.replicate numPackets ([] : List Nat)))
    looped.bind fun arr =>
      let residue := payload.length % 1013
      if residue > 0 then
        (makePacket 0 ((seqNo + (numPackets - 1)) % 4294967296) host
            (payload.drop ((numPackets - 1) * 1013))).map
          fun p => (arr.set (numPackets - 1) (getBytesFromPacket p), numPackets)
      else some (arr, numPackets)

/-! ## Handshake state machine -/

/-- One receive-handling round of handshake (client.go lines 127-140),
after ParsePacket has decoded the incoming datagram. The initial sequence
number seqInit is the constant 1 of line 111. Result:
`some none` = packet discarded, machine keeps waiting in SYN_SENT;
`some (some ack)` = transition to ESTABLISHED after emitting exactly this
ACK packet (kind 1, sequence receivedSeq+1); `none` = panic. -/
def handshakeStep (host : List Char) (synAck : UDPPacket) : Option (Option UDPPacket) :=
  let seqInit : Nat := 1
  match synAck.pType.get? 0 with
  | none => none
  | some t =>
    let receivedSeq := beUint32 synAck.seqNo
    if t = 3 ∧ receivedSeq = seqInit + 1 then
      (makePacket 1 (receivedSeq + 1) host []).map some
    else some none

/-! ## GET-direction receive loop, DATA-packet handling -/

/-- checkNotEmpty (client.go lines 593-600). -/
def checkNotEmpty (responsePayload : List (List Nat)) : Bool :=
  responsePayload.all fun packet => packet.length ≠ 0

/-- stringifiedResponse (client.go lines 291-297): in-order concatenation. -/
def stringifiedResponse (responsePayload : List (List Nat)) : List Nat :=
  responsePayload.foldl (· ++ ·) []

/-- The per-request mutable state of UDPGet's receive loop that the
DATA branch reads and writes: expectedSeqNo (uint32, starts at 1),
numOfResponsePackets (`none` models the initial -1) and the reassembly
slice responsePayload (Go empty string = empty byte list). -/
structure GetState where
  expectedSeqNo : Nat
  numOfResponsePackets : Option Nat
  responsePayload : List (List Nat)
deriving DecidableEq, Repr

/-- The DATA-packet branch of UDPGet's receive loop (client.go lines
236-287) as a state transformer. Returns the new state, the list of
packets written to the socket during the branch, and `some bytes` when the
branch returns the reassembled response to the caller. `none` models the
panics reachable in the source: payload[len-1] on an empty payload,
payload[0:len-2] on a payload shorter than 2 bytes,
responsePayload[responseSeq] out of range, responsePayload[1:num+1] out of
range, or a makePacket panic. -/
def udpGetDataStep (host : List Char) (st : GetState) (pkt : UDPPacket) :
    Option (GetState × List UDPPacket × Option (List Nat)) :=
  let learned : Option (Nat × List (List Nat)) :=
    match st.numOfResponsePackets with
    | none =>
      match pkt.payload.getLast? with
      | none => none
      | some b =>
        let n := if b = 0 then 1 else b
        some (n, List.replicate (n + 5) ([] : List Nat))
    | some n => some (n, st.responsePayload)
  match learned with
  | none => none
  | some (num, buf0) =>
    let responseSeq := beUint32 pkt.seqNo
    if pkt.payload.length < 2 then none
    else
      let responseSlice := pkt.payload.take (pkt.payload.length - 2)
      if responseSeq < buf0.length then
        let buf := buf0.set responseSeq responseSlice
        let branch : Option (GetState × List UDPPacket) :=
          if responseSeq = st.expectedSeqNo then
            (makePacket 4 responseSeq host []).map fun ack =>
              ({ expectedSeqNo := (st.expectedSeqNo + 1) % 4294967296,
                 numOfResponsePackets := some num, responsePayload := buf }, [ack])
          else if responseSeq < st.expectedSeqNo then
            (makePacket 4 responseSeq host []).map fun ack =>
              ({ expectedSeqNo := st.expectedSeqNo,
                 numOfResponsePackets := some num, responsePayload := buf }, [ack])
          else
            ((List.range' st.expectedSeqNo (responseSeq - st.expectedSeqNo)).mapM
                fun n => makePacket 4 n host []).map fun naks =>
              ({ expectedSeqNo := (responseSeq + 1) % 4294967296,
                 numOfResponsePackets := some num, responsePayload := buf }, naks)
        match branch with
        | none => none
        | some (st', written) =>
          if num = 1 then some (st', written, some (buf.getD responseSeq []))
          else if num + 1 ≤ buf.length then
            if checkNotEmpty ((buf.drop 1).take num) then
              some (st', written, some (stringifiedResponse ((buf.drop 1).take num)))
            else some (st', written, none)
          else none
      else none

/-! ## Receive-loop to retransmission-task hand-off -/

/-- UDPGet's forwarding of an ACK/NAK to its retransmission goroutine
(client.go lines 222-228): a select with a default case on an unbuffered
channel. The notification is delivered only when the goroutine is already
blocked on a receive (`receiverReady`), otherwise it is dropped; the send
itself never suspends. -/
def getNotifyHandoff (receiverReady : Bool) (p : UDPPacket) : Option (Option UDPPacket) :=
  some (if receiverReady then some p else none)

/-- UDPPost's forwarding of an ACK/NAK to its retransmission goroutine
(client.go lines 379-386), with the channel contents q (capacity 1024).
The select's case performs a non-blocking send; its body then performs a
second, unconditional send of the same packet. `some q'` is the channel
contents after the hand-off completes immediately; `none` models the
second send suspending the receive loop because the buffer is full. -/
def postNotifyHandoff (q : List UDPPacket) (p : UDPPacket) : Option (List UDPPacket) :=
  if q.length < 1024 then
    if q.length + 1 < 1024 then some (q ++ [p, p])
    else none
  else some q

/-! ## HTTP response parsing and redirects -/

/-- The Response struct as populated by FromString. -/
structure Response where
  Protocol : List Char
  StatusCode : Int
  Headers : List Char
  Body : List Char
deriving DecidableEq, Repr

/-- FromString (client.go lines 446-475). Result:
`some (resp?, err?)` is the Go return pair (possibly (nil, nil));
`none` models the panic at statusLineSplit[1] when the status line starts
with HTTP but contains no space. parseStatusCode's error (from
strconv.Atoi) is represented by its "invalid syntax" message. -/
def fromString (response : List Char) : Option (Option Response × Option (List Char)) :=
  let responseSplit := goSplit response ("\r\n\r\n".toList)
  if responseSplit.length = 2 then
    let preBody := responseSplit.getD 0 []
    let body := responseSplit.getD 1 []
    let preBodySplit := goSplit preBody ['\n']
    let firstLine := preBodySplit.getD 0 []
    if ("HTTP".toList).isPrefixOf firstLine then
      let statusLineSplit := goSplit firstLine [' ']
      match statusLineSplit.get? 1 with
      | none => none
      | some codeStr =>
        match atoi codeStr with
        | none => some (none, some ("invalid syntax".toList))
        | some code =>
          some (some { Protocol := statusLineSplit.getD 0 [],
                       StatusCode := code,
                       Headers := List.intercalate ['\n'] (preBodySplit.drop 1),
                       Body := body }, none)
    else
      some (some { Protocol := [], StatusCode := 0,
                   Headers := List.intercalate ['\n'] (preBodySplit.drop 1),
                   Body := body }, none)
  else some (none, none)

/-- Worker for extractRedirectURI: walks the header lines; a line without
a colon stops the scan (the source breaks out of the loop). -/
def extractRedirectURIGo : List (List Char) → List Char
  | [] => []
  | header :: rest =>
    match strIndex header [':'] with
    | some idx =>
      if header.take idx = "Location".toList then
        trimSpace (trimSuffix (trimSuffix (header.drop (idx + 1)) ['\r']) ['\n'])
      else extractRedirectURIGo rest
    | none => []

/-- extractRedirectURI (client.go lines 503-517): case-sensitive exact
match on the Location key. -/
def extractRedirectURI (headers : List Char) : List Char :=
  extractRedirectURIGo (goSplit headers ['\n'])

/-- The loop body of HandleRedirects (client.go lines 477-501), with the
remaining loop iterations (5 - redirectCount) as structural fuel.
`fetch` stands for the Get call: it returns the response string and an
optional error. Result: `some (.ok s)` and `some (.error e)` are the Go
return pairs; `none` models the nil-pointer panic when the loop dereferences
a response that FromString returned as nil without an error, or a
FromString panic. -/
def handleRedirectsLoop (fetch : List Char → List Char × Option (List Char)) :
    Nat → Option Response → List Char → Option (Except (List Char) (List Char))
  | 0, _, _ => some (.error ("Exceeded 5 redirects!".toList))
  | Nat.succ fuel, response, responseString =>
    match response with
    | none => none
    | some r =>
      if 301 ≤ r.StatusCode ∧ r.StatusCode ≤ 303 then
        let redirectURI := extractRedirectURI r.Headers
        if redirectURI = [] then
          some (.error ("Bad redirect URI in Location header".toList))
        else
          match fetch redirectURI with
          | (_, some e) => some (.error e)
          | (rs, none) =>
            match fromString rs with
            | none => none
            | some (_, some e) => some (.error e)
            | some (r', none) => handleRedirectsLoop fetch fuel r' rs
      else some (.ok responseString)

/-- HandleRedirects (client.go lines 477-501): the for loop runs while
redirectCount < 5, so 5 - redirectCount iterations remain. -/
def handleRedirects (fetch : List Char → List Char × Option (List Char))
    (response : Option Response) (responseString : List Char) (redirectCount : Nat) :
    Option (Except (List Char) (List Char)) :=
  handleRedirectsLoop fetch (5 - redirectCount) response responseString

/-! ## Auxiliary predicates and concrete fixtures used in the statements -/

/-- The hosts on which makePacket cannot panic: at most four dot-separated
address sections, and a colon so that addrSplit[1] exists. -/
def hostOk (host : List Char) : Bool :=
  (goSplit ((goSplit host [':']).getD 0 []) ['.']).length ≤ 4 &&
    2 ≤ (goSplit host [':']).length

/-- A 302 response string with a Location header (redirect scenario). -/
def s302 : List Char :=
  "HTTP/1.1 302 Found\r\nLocation: http://example.com/next\r\n\r\n".toList

/-- A terminal 200 response string whose body is "final body". -/
def s200 : List Char :=
  "HTTP/1.1 200 OK\r\nHost: x\r\n\r\nfinal body".toList

/-- The Response value FromString produces for s302. -/
def resp302 : Response :=
  { Protocol := "HTTP/1.1".toList, StatusCode := 302,
    Headers := "Location: http://example.com/next".toList, Body := [] }

/-- A Get oracle serving the terminal 200 response at the redirect target
and failing anywhere else. -/
def fetchScenario (uri : List Char) : List Char × Option (List Char) :=
  if uri = "http://example.com/next".toList then (s200, none)
  else ([], some ("unreachable".toList))

/-- A Get oracle that answers every request with the 302 response again. -/
def fetchAlways302 (_uri : List Char) : List Char × Option (List Char) :=
  (s302, none)

/-! ## Theorems -/

/-- makePacket on the fixed test host forwards the payload unchanged. -/
theorem makePacket_fixed_host_passthrough (pl : List Nat) :
    makePacket 0 4 ['1', '.', '2', '.', '3', '.', '4', ':', '8', '0', '8', '0'] pl
      = some { pType := [0], seqNo := [0, 0, 0, 4], peerAddr := [1, 2, 3, 4],
               peerPort := [31, 144], payload := pl } := rfl

/-- C1: the claim says every payload yields max(1, ceil(len/1013)) packets
whose payloads concatenate back to the payload. The code violates this:
for a payload whose length is a positive multiple of 1013 larger than 1013
the final slot of the packet slice is never assigned (the residue guard on
line 94 skips it), so the last 1013 payload bytes are lost; and an empty
payload yields zero packets, not one. Evaluated here at a 2026-byte payload
(second packet is the nil slice, so the reassembled payload is only the
first 1013 bytes) and at the empty payload (zero packets). -/
theorem segmenter_drops_data_on_exact_multiple :
    getDataPacketBytes 4 ("1.2.3.4:8080".toList) (List.replicate 2026 65)
      = some ([[0, 0, 0, 0, 4, 1, 2, 3, 4, 31, 144] ++ List.replicate 1013 65, []], 2)
    ∧ List.replicate 1013 65 ++ ([] : List Nat) ≠ List.replicate 2026 65
    ∧ getDataPacketBytes 4 ("1.2.3.4:8080".toList) [] = some ([], 0) := by
  refine ⟨?_, ?_, by decide⟩
  · unfold getDataPacketBytes
    simp only [List.length_replicate]
    norm_num
    simp [makePacket_fixed_host_passthrough, getBytesFromPacket]
  · intro h
    have hlen := congrArg List.length h
    simp at hlen

/-- C2: the claim says ParsePacket rejects inputs shorter than 11 bytes
with a MalformedPacket error and never indexes past the input. In the code
ParsePacket has no error path at all: it unconditionally indexes data[0]
and slices up to data[9:11], so every input shorter than 11 bytes causes an
out-of-range panic, modelled by `none`. -/
theorem parsePacket_short_input_panics (data : List Nat) (h : data.length < 11) :
    ParsePacket data = none := by
  have h9 : goSlice data 9 11 = none := by
    unfold goSlice
    rw [if_neg]
    rintro ⟨-, h11⟩
    omega
  unfold ParsePacket
  rw [h9]
  cases data.get? 0 <;> cases goSlice data 1 5 <;> cases goSlice data 5 9 <;>
    cases goSlice data 11 data.length <;> rfl

/-- Witness for C2 at the empty input. -/
theorem parsePacket_short_input_panics_witness : ParsePacket [] = none :=
  parsePacket_short_input_panics [] (by decide)

/-- C3: the claim says the GET receive loop answers an in-order or
duplicate DATA packet with a packet of wire kind ACK (kind byte 1).
The code builds both acknowledgments with makePacket(4, ...), so the
emitted packet's kind byte is 4 (the NAK wire kind) even though the
surrounding comments say SEND ACK. Evaluated at an in-order DATA packet
(sequence 1 = expected 1; expected advances to 2) and at a duplicate
(sequence 1 < expected 5; state unchanged): both emit kind byte 4. -/
theorem udpGet_ack_uses_nak_wire_kind :
    udpGetDataStep ("1.2.3.4:8080".toList)
        { expectedSeqNo := 1, numOfResponsePackets := some 2,
          responsePayload := List.replicate 7 [] }
        { pType := [0], seqNo := [0, 0, 0, 1], peerAddr := [9, 9, 9, 9],
          peerPort := [0, 0], payload := [104, 105, 0, 2] }
      = some ({ expectedSeqNo := 2, numOfResponsePackets := some 2,
                responsePayload := [[], [104, 105], [], [], [], [], []] },
              [{ pType := [4], seqNo := [0, 0, 0, 1], peerAddr := [1, 2, 3, 4],
                 peerPort := [31, 144], payload := [] }], none)
    ∧ udpGetDataStep ("1.2.3.4:8080".toList)
        { expectedSeqNo := 5, numOfResponsePackets := some 2,
          responsePayload := [[], [104, 105], [], [], [], [], []] }
        { pType := [0], seqNo := [0, 0, 0, 1], peerAddr := [9, 9, 9, 9],
          peerPort := [0, 0], payload := [104, 105, 0, 2] }
      = some ({ expectedSeqNo := 5, numOfResponsePackets := some 2,
                responsePayload := [[], [104, 105], [], [], [], [], []] },
              [{ pType := [4], seqNo := [0, 0, 0, 1], peerAddr := [1, 2, 3, 4],
                 peerPort := [31, 144], payload := [] }], none) := by
  decide

/-- C6: the claim says the ACK/NAK hand-off never blocks the receive loop
in either direction and drops when full. The GET direction satisfies this
(select with default on an unbuffered channel). The POST direction does
not: after the select's non-blocking send succeeds, its case body performs
a second, unconditional send of the same packet, which suspends the receive
loop whenever that first send just filled the 1024-slot buffer — here with
1023 notifications already queued. -/
theorem post_handoff_blocks_when_full :
    postNotifyHandoff
        (List.replicate 1023
          { pType := [1], seqNo := [0, 0, 0, 4], peerAddr := [0, 0, 0, 0],
            peerPort := [0, 0], payload := [] })
        { pType := [1], seqNo := [0, 0, 0, 4], peerAddr := [0, 0, 0, 0],
          peerPort := [0, 0], payload := [] } = none
    ∧ (∀ b : Bool,
        getNotifyHandoff b
          { pType := [1], seqNo := [0, 0, 0, 4], peerAddr := [0, 0, 0, 0],
            peerPort := [0, 0], payload := [] } ≠ none) := by
  constructor
  · simp [postNotifyHandoff]
  · intro b
    simp [getNotifyHandoff]

/-- C7: the claim says makePacket rejects a host that does not resolve to
exactly four numeric octets instead of silently writing zero bytes.
The code discards the strconv.Atoi errors, so "example.com:8080" encodes
with the silent address 0.0.0.0 and no error; and a host with five
dot-sections is not rejected with an error either — it panics on the
out-of-range write peerAddrBytes[4]. -/
theorem makePacket_silent_zero_address :
    makePacket 0 1 ("example.com:8080".toList) []
      = some { pType := [0], seqNo := [0, 0, 0, 1], peerAddr := [0, 0, 0, 0],
               peerPort := [31, 144], payload := [] }
    ∧ makePacket 0 1 ("1.2.3.4.5:80".toList) [] = none := by
  decide

/-- C10: whenever the input does not split into exactly two parts around
the CRLF CRLF separator, FromString returns (nil, nil): no Response and no
error, so the caller gets no indication of failure. -/
theorem fromString_returns_neither_value_nor_error (s : List Char)
    (h : (goSplit s ("\r\n\r\n".toList)).length ≠ 2) :
    fromString s = some (none, none) := by
  simp only [fromString]
  rw [if_neg h]

/-- Witness for C10 at a separator-free input. -/
theorem fromString_returns_neither_value_nor_error_witness :
    fromString ("hello".toList) = some (none, none) :=
  fromString_returns_neither_value_nor_error _ (by decide)

/-- Reading back a big-endian 32-bit encoding yields the value mod 2^32. -/
theorem beUint32_putUint32BE (n : Nat) : beUint32 (putUint32BE n) = n % 4294967296 := by
  simp [putUint32BE, beUint32]
  omega

/-- On a well-formed host, makePacket always succeeds and only the payload
and the kind/sequence fields vary. -/
theorem makePacket_of_hostOk (host : List Char) (h : hostOk host = true) :
    ∃ addr port, ∀ t s pl, makePacket t s host pl
      = some { pType := [t % 256], seqNo := putUint32BE s, peerAddr := addr,
               peerPort := port, payload := pl } := by
  have hb : (goSplit ((goSplit host [':']).getD 0 []) ['.']).length ≤ 4
      ∧ 2 ≤ (goSplit host [':']).length := by
    have h2 := h
    unfold hostOk at h2
    simpa using h2
  obtain ⟨h4, h2⟩ := hb
  have h1 : 1 < (goSplit host [':']).length := by omega
  have hp : (goSplit host [':']).get? 1 = some ((goSplit host [':']).get ⟨1, h1⟩) :=
    List.get?_eq_get h1
  refine ⟨(List.range 4).map (fun i =>
      match (goSplit ((goSplit host [':']).getD 0 []) ['.']).get? i with
      | some s => intToByte (atoiOrZero s)
      | none => 0),
    putUint16BE (intToUint16 (atoiOrZero ((goSplit host [':']).get ⟨1, h1⟩))),
    fun t s pl => ?_⟩
  unfold makePacket
  rw [if_neg (by omega), hp]

/-- mapM over the Option monad with a total function is a map. -/
theorem mapM_option_map {α β : Type} (f : α → β) :
    ∀ l : List α, l.mapM (fun a => some (f a)) = some (l.map f)
  | [] => rfl
  | a :: t => by
    simp only [List.mapM_cons, mapM_option_map f t, List.map_cons]
    rfl

/-- Helper lemmas are stated above; C4: in the handshake receive handling,
any packet that is not a SYN_ACK (kind 3) or whose sequence number differs
from initial+1 (= 2, the code's seqInit is 1) is discarded with no state
change, while a SYN_ACK with sequence initial+1 makes the machine emit
exactly one ACK (kind 1) with sequence received+1 and return to the caller
(ESTABLISHED). -/
theorem handshake_transition_correct (host : List Char) (hh : hostOk host = true)
    (p : UDPPacket) (t : Nat) (hp : p.pType = [t]) :
    ((t ≠ 3 ∨ beUint32 p.seqNo ≠ 2) → handshakeStep host p = some none)
    ∧ (t = 3 → beUint32 p.seqNo = 2 →
        ∃ ack, handshakeStep host p = some (some ack) ∧ ack.pType = [1]
          ∧ beUint32 ack.seqNo = beUint32 p.seqNo + 1) := by
  obtain ⟨addr, port, hmk⟩ := makePacket_of_hostOk host hh
  constructor
  · intro hcond
    unfold handshakeStep
    rw [hp]
    simp only [List.get?]
    rw [if_neg]
    rintro ⟨rfl, h2⟩
    rcases hcond with hc | hc
    · exact hc rfl
    · exact hc h2
  · rintro rfl h2
    unfold handshakeStep
    rw [hp]
    simp only [List.get?]
    norm_num [h2, hmk, beUint32_putUint32BE]

/-- Witness for C4 at a concrete valid SYN_ACK. -/
theorem handshake_transition_correct_witness :
    ∃ ack, handshakeStep ("1.2.3.4:80".toList)
        { pType := [3], seqNo := [0, 0, 0, 2], peerAddr := [0, 0, 0, 0],
          peerPort := [0, 0], payload := [] } = some (some ack)
      ∧ ack.pType = [1]
      ∧ beUint32 ack.seqNo = beUint32 ([0, 0, 0, 2] : List Nat) + 1 :=
  (handshake_transition_correct ("1.2.3.4:80".toList) (by decide) _ 3 rfl).2 rfl (by decide)

/-- A list of length two is a two-element list literal. -/
theorem len_two_eq (l : List Nat) (h : l.length = 2) : ∃ a b, l = [a, b] := by
  match l, h with
  | [a, b], _ => exact ⟨a, b, rfl⟩

/-- A list of length four is a four-element list literal. -/
theorem len_four_eq (l : List Nat) (h : l.length = 4) : ∃ a b c d, l = [a, b, c, d] := by
  match l, h with
  | [a, b, c, d], _ => exact ⟨a, b, c, d, rfl⟩

/-- C8: for every structurally valid packet (1-byte kind, 4-byte sequence,
4-byte address, 2-byte port, payload of at most 1013 bytes), decoding the
bytes produced by encoding it returns the same packet. -/
theorem decode_encode_roundtrip (p : UDPPacket) (h1 : p.pType.length = 1)
    (h4 : p.seqNo.length = 4) (ha : p.peerAddr.length = 4)
    (hp2 : p.peerPort.length = 2) (hpl : p.payload.length ≤ 1013) :
    ParsePacket (getBytesFromPacket p) = some p := by
  obtain ⟨pt, sn, pa, pp, pl⟩ := p
  simp only at h1 h4 ha hp2
  obtain ⟨a, rfl⟩ := List.length_eq_one.mp h1
  obtain ⟨s0, s1, s2, s3, rfl⟩ := len_four_eq _ h4
  obtain ⟨a0, a1, a2, a3, rfl⟩ := len_four_eq _ ha
  obtain ⟨q0, q1, rfl⟩ := len_two_eq _ hp2
  show ParsePacket (a :: s0 :: s1 :: s2 :: s3 :: a0 :: a1 :: a2 :: a3 :: q0 :: q1 :: pl) = _
  have hlen : (a :: s0 :: s1 :: s2 :: s3 :: a0 :: a1 :: a2 :: a3 :: q0 :: q1 :: pl).length
      = pl.length + 11 := by simp
  unfold ParsePacket
  rw [hlen]
  have e2 : goSlice (a :: s0 :: s1 :: s2 :: s3 :: a0 :: a1 :: a2 :: a3 :: q0 :: q1 :: pl) 1 5
      = some [s0, s1, s2, s3] := by
    unfold goSlice
    rw [if_pos ⟨by omega, by rw [hlen]; omega⟩]
    rfl
  have e3 : goSlice (a :: s0 :: s1 :: s2 :: s3 :: a0 :: a1 :: a2 :: a3 :: q0 :: q1 :: pl) 5 9
      = some [a0, a1, a2, a3] := by
    unfold goSlice
    rw [if_pos ⟨by omega, by rw [hlen]; omega⟩]
    rfl
  have e4 : goSlice (a :: s0 :: s1 :: s2 :: s3 :: a0 :: a1 :: a2 :: a3 :: q0 :: q1 :: pl) 9 11
      = some [q0, q1] := by
    unfold goSlice
    rw [if_pos ⟨by omega, by rw [hlen]; omega⟩]
    rfl
  have e5 : goSlice (a :: s0 :: s1 :: s2 :: s3 :: a0 :: a1 :: a2 :: a3 :: q0 :: q1 :: pl) 11
      (pl.length + 11) = some pl := by
    unfold goSlice
    rw [if_pos ⟨by omega, by rw [hlen]⟩]
    have : pl.length + 11 - 11 = pl.length := by omega
    rw [this]
    simp
  rw [e2, e3, e4, e5]
  rfl

/-- Witness for C8 at a concrete packet. -/
theorem decode_encode_roundtrip_witness :
    ParsePacket (getBytesFromPacket
      { pType := [0], seqNo := [0, 0, 0, 4], peerAddr := [1, 2, 3, 4],
        peerPort := [0, 80], payload := [104, 105] })
      = some { pType := [0], seqNo := [0, 0, 0, 4], peerAddr := [1, 2, 3, 4],
               peerPort := [0, 80], payload := [104, 105] } :=
  decode_encode_roundtrip _ (by decide) (by decide) (by decide) (by decide) (by decide)

/-- C5: in the GET receive loop, when the expected sequence is E and a DATA
packet with sequence E+k (k > 0) arrives, the loop emits exactly k NAK
packets (kind 4), one for each sequence number in [E, E+k), and sets the
expected sequence to E+k+1. -/
theorem udpGet_gap_emits_naks (host : List Char) (hh : hostOk host = true)
    (E k num : Nat) (buf : List (List Nat)) (payload addrP portP : List Nat)
    (hk : 0 < k) (hover : E + k + 1 < 4294967296)
    (hbuf : E + k < buf.length) (hnum : num + 1 ≤ buf.length)
    (hpl : 2 ≤ payload.length) :
    ∃ addr port st' comp,
      udpGetDataStep host
          { expectedSeqNo := E, numOfResponsePackets := some num, responsePayload := buf }
          { pType := [0], seqNo := putUint32BE (E + k), peerAddr := addrP,
            peerPort := portP, payload := payload }
        = some (st',
            (List.range' E k).map (fun n =>
              { pType := [4], seqNo := putUint32BE n, peerAddr := addr,
                peerPort := port, payload := [] }),
            comp)
      ∧ st'.expectedSeqNo = E + k + 1
      ∧ ((List.range' E k).map (fun n =>
            ({ pType := [4], seqNo := putUint32BE n, peerAddr := addr,
               peerPort := port, payload := [] } : UDPPacket))).length = k := by
  obtain ⟨addr, port, hmk⟩ := makePacket_of_hostOk host hh
  refine ⟨addr, port, ?_⟩
  have hseq : beUint32 (putUint32BE (E + k)) = E + k := by
    rw [beUint32_putUint32BE]
    omega
  have hfun : (fun n => makePacket 4 n host []) = fun n =>
      some ({ pType := [4], seqNo := putUint32BE n, peerAddr := addr,
              peerPort := port, payload := [] } : UDPPacket) :=
    funext fun n => by rw [hmk 4 n []]
  unfold udpGetDataStep
  simp only [hseq]
  rw [if_neg (by omega : ¬payload.length < 2), if_pos hbuf,
    if_neg (by omega : ¬(E + k = E)), if_neg (by omega : ¬(E + k < E)),
    Nat.add_sub_cancel_left, hfun, mapM_option_map, Nat.mod_eq_of_lt hover,
    List.length_set]
  simp only [Option.map_some']
  split_ifs with hn1 hle
  · exact ⟨_, _, rfl, rfl, by simp⟩
  · exact ⟨_, _, rfl, rfl, by simp⟩
  · exact ⟨_, _, rfl, rfl, by simp⟩

/-- Witness for C5: expected 1, DATA sequence 3 arrives, two NAKs. -/
theorem udpGet_gap_emits_naks_witness :
    ∃ addr port st' comp,
      udpGetDataStep ("1.2.3.4:80".toList)
          { expectedSeqNo := 1, numOfResponsePackets := some 3,
            responsePayload := List.replicate 8 [] }
          { pType := [0], seqNo := putUint32BE (1 + 2), peerAddr := [0, 0, 0, 0],
            peerPort := [0, 0], payload := [104, 105, 0, 3] }
        = some (st',
            (List.range' 1 2).map (fun n =>
              { pType := [4], seqNo := putUint32BE n, peerAddr := addr,
                peerPort := port, payload := [] }),
            comp)
      ∧ st'.expectedSeqNo = 4 := by
  obtain ⟨addr, port, st', comp, h1, h2, h3⟩ :=
    udpGet_gap_emits_naks ("1.2.3.4:80".toList) (by decide) 1 2 3 (List.replicate 8 [])
      [104, 105, 0, 3] [0, 0, 0, 0] [0, 0] (by decide) (by decide) (by decide)
      (by decide) (by decide)
  exact ⟨addr, port, st', comp, h1, h2⟩

/-- C9: HandleRedirects follows redirects only for status codes 301-303
(anything else returns the response unchanged without calling Get), is
capped at 5 hops after which it fails with the Exceeded-5-redirects error,
locates the target with a case-sensitive exact match on the Location key,
and on a 302 with a Location header followed by a terminal 200 returns the
final response (whose body is "final body") after one hop. -/
theorem handleRedirects_policy :
    (∀ (fetch : List Char → List Char × Option (List Char)) (r : Response)
        (s : List Char) (count : Nat),
        count < 5 → ¬(301 ≤ r.StatusCode ∧ r.StatusCode ≤ 303) →
        handleRedirects fetch (some r) s count = some (.ok s))
    ∧ (∀ (fetch : List Char → List Char × Option (List Char)) (resp : Option Response)
        (s : List Char) (count : Nat), 5 ≤ count →
        handleRedirects fetch resp s count
          = some (.error ("Exceeded 5 redirects!".toList)))
    ∧ handleRedirects fetchScenario (some resp302) s302 0 = some (.ok s200)
    ∧ fromString s302 = some (some resp302, none)
    ∧ (fromString s200).map (fun r => r.1.map Response.Body)
        = some (some ("final body".toList))
    ∧ extractRedirectURI ("Location: http://example.com/next".toList)
        = "http://example.com/next".toList
    ∧ extractRedirectURI ("location: http://example.com/next".toList) = []
    ∧ handleRedirects fetchAlways302 (some resp302) s302 0
        = some (.error ("Exceeded 5 redirects!".toList)) := by
  refine ⟨?_, ?_, by rfl, by decide, by decide, by decide, by decide, by rfl⟩
  · intro fetch r s count hc hcode
    unfold handleRedirects
    rw [show 5 - count = (4 - count) + 1 by omega]
    simp only [handleRedirectsLoop]
    rw [if_neg hcode]
  · intro fetch resp s count hc
    unfold handleRedirects
    rw [show 5 - count = 0 by omega]
    rfl

/-- Witness for C9 at a concrete non-redirect response. -/
theorem handleRedirects_policy_witness :
    handleRedirects (fun u => (u, none))
        (some { Protocol := [], StatusCode := 200, Headers := [], Body := [] })
        ("x".toList) 0 = some (.ok ("x".toList)) :=
  handleRedirects_policy.1 _ _ _ 0 (by omega) (by decide)
